import Mathlib

/-!
Verification of the download-manager specification of the Telegram Depiler
repository against its source. The visible source is the administrative
frontend (frontend/src/pages/Dashboard.tsx); the download engine itself
(rule matcher, scheduler, file placement) is not part of the visible
source, so those parts are modelled from the specification text, as noted
on each definition.

String scanning is carried out on the character list underlying a string,
with structural recursion, so that every definition evaluates inside the
kernel.
-/

/-- One megabyte in bytes, the unit of the size_range grammar. -/
def megabyte : Nat := 1048576

/-- Whether a character occurs in a character list. -/
def containsChar (c : Char) : List Char → Bool
  | [] => false
  | x :: xs => decide (x = c) || containsChar c xs

/-- Split a character list at every occurrence of a separator character;
the result always has one more piece than there are separators. -/
def splitOnChar (c : Char) : List Char → List (List Char)
  | [] => [[]]
  | x :: xs =>
    match splitOnChar c xs, decide (x = c) with
    | r, true => [] :: r
    | [], false => [[x]]
    | y :: ys, false => (x :: y) :: ys

/-- Numeric value of a decimal digit character, none otherwise. -/
def charDigit (c : Char) : Option Nat :=
  if '0' ≤ c ∧ c ≤ '9' then some (c.toNat - 48) else none

/-- Parse a nonempty all-digit character list as a decimal number. -/
def digitsToNat : List Char → Option Nat
  | [] => none
  | cs => go cs 0
where
  go : List Char → Nat → Option Nat
    | [], acc => some acc
    | c :: cs, acc =>
      match charDigit c with
      | some d => go cs (acc * 10 + d)
      | none => none

/-- Parsed form of a size_range string.
Modelled from the spec: the rule matcher interpreting size_range is not in
the visible source; the grammar is stated in the spec and echoed by the
UI tooltip (Dashboard.tsx lines 1186-1191). -/
inductive SizeFilter where
  | unrestricted : SizeFilter
  | atLeast : Nat → SizeFilter
  | between : Nat → Nat → SizeFilter
deriving DecidableEq

/-- Modelled from the spec: size_range grammar of section 4.1 — the string
"0" is unrestricted, a lone number N is a lower bound of N megabytes, and
A-B is an inclusive range with an empty A defaulting to 0. Strings fitting
none of the three forms parse to none (rejected at rule-save time). -/
def parseSizeRange (s : String) : Option SizeFilter :=
  if s = "0" then some SizeFilter.unrestricted
  else if containsChar ('-') s.data then
    match splitOnChar ('-') s.data with
    | [a, b] =>
      match (if a = [] then some 0 else digitsToNat a), digitsToNat b with
      | some x, some y => some (SizeFilter.between x y)
      | _, _ => none
    | _ => none
  else
    (digitsToNat s.data).map SizeFilter.atLeast

/-- Modelled from the spec: acceptance of a file size (in bytes) by a
parsed size filter; range bounds are inclusive. -/
def evalSizeFilter : SizeFilter → Nat → Bool
  | SizeFilter.unrestricted, _ => true
  | SizeFilter.atLeast n, bytes => decide (n * megabyte ≤ bytes)
  | SizeFilter.between a b, bytes =>
      decide (a * megabyte ≤ bytes ∧ bytes ≤ b * megabyte)

/-- Modelled from the spec: acceptance of a file size by a size_range
string; a malformed string accepts nothing. -/
def sizeRangeAccepts (s : String) (bytes : Nat) : Bool :=
  match parseSizeRange s with
  | some f => evalSizeFilter f bytes
  | none => false

/-- C1: the size_range grammar has exactly three mutually exclusive cases
deciding every string — the literal "0" (unrestricted), a dash-free string
(a lone number N, accepting sizes of at least N megabytes), and a dashed
string A-B (inclusive range, empty A defaulting to 0). -/
theorem sizeRange_grammar :
    (∀ s : String,
      (s = "0" ∧ ¬(s ≠ "0" ∧ containsChar ('-') s.data = false)
        ∧ ¬(containsChar ('-') s.data = true))
      ∨ (¬(s = "0") ∧ (s ≠ "0" ∧ containsChar ('-') s.data = false)
        ∧ ¬(containsChar ('-') s.data = true))
      ∨ (¬(s = "0") ∧ ¬(s ≠ "0" ∧ containsChar ('-') s.data = false)
        ∧ containsChar ('-') s.data = true))
    ∧ (∀ bytes : Nat, sizeRangeAccepts ("0") bytes = true)
    ∧ (∀ (s : String) (n bytes : Nat), s ≠ "0" → containsChar ('-') s.data = false →
        digitsToNat s.data = some n →
        (sizeRangeAccepts s bytes = true ↔ n * megabyte ≤ bytes))
    ∧ (∀ (s : String) (a b : List Char) (x y bytes : Nat),
        containsChar ('-') s.data = true →
        splitOnChar ('-') s.data = [a, b] →
        (if a = [] then some 0 else digitsToNat a) = some x →
        digitsToNat b = some y →
        (sizeRangeAccepts s bytes = true ↔
          x * megabyte ≤ bytes ∧ bytes ≤ y * megabyte)) := by
  refine ⟨?_, ?_, ?_, ?_⟩
  · intro s
    by_cases h0 : s = "0"
    · subst h0
      exact Or.inl ⟨rfl, fun h => h.1 rfl, by decide⟩
    · by_cases hc : containsChar ('-') s.data = true
      · exact Or.inr (Or.inr ⟨h0, fun h => by simp [hc] at h, hc⟩)
      · exact Or.inr (Or.inl ⟨h0, ⟨h0, by simpa using hc⟩, hc⟩)
  · intro bytes
    simp [sizeRangeAccepts, parseSizeRange, evalSizeFilter]
  · intro s n bytes h0 hc ht
    simp [sizeRangeAccepts, parseSizeRange, h0, hc, ht, evalSizeFilter]
  · intro s a b x y bytes hc hsplit hx hy
    have h0 : ¬(s = "0") := by
      intro h
      rw [h] at hc
      exact absurd hc (by decide)
    simp [sizeRangeAccepts, parseSizeRange, h0, hc, hsplit, hx, hy, evalSizeFilter]

/-- C1 witness: concrete evaluations of the three grammar cases through
the main theorem. -/
theorem sizeRange_grammar_witness :
    sizeRangeAccepts ("10-100") (20 * megabyte) = true
    ∧ sizeRangeAccepts ("10") (5 * megabyte) = false
    ∧ sizeRangeAccepts ("0") 12345 = true := by
  refine ⟨?_, ?_, ?_⟩
  · exact (sizeRange_grammar.2.2.2 ("10-100") (['1', '0']) (['1', '0', '0'])
      10 100 (20 * megabyte)
      (by decide) (by decide) (by decide) (by decide)).mpr (by decide)
  · have h := sizeRange_grammar.2.2.1 ("10") 10 (5 * megabyte)
      (by decide) (by decide) (by decide)
    have h2 : ¬(sizeRangeAccepts ("10") (5 * megabyte) = true) := by
      rw [h]
      decide
    simpa using h2
  · exact sizeRange_grammar.2.1 12345

/-- Form state of the rule modal, as held by Dashboard.tsx (lines 94-103);
match mode is one of the strings all, include, exclude. -/
structure RuleForm where
  chatId : Int
  mode : String
  extensions : String
  sizeRange : String
  saveDir : String
  filenameTemplate : String
  matchMode : String
  includeKeywords : String
  excludeKeywords : String

/-- Rule payload persisted by the create and update operations. -/
structure RuleData where
  chat_id : Int
  mode : String
  include_extensions : Option String
  size_range : String
  save_dir : Option String
  filename_template : Option String
  match_mode : String
  include_keywords : Option String
  exclude_keywords : Option String
  enabled : Bool

/-- Payload built by handleSaveRule (Dashboard.tsx lines 362-373); the JS
falsy test on a string is an equality test against the empty string, and
the `x or null` idiom becomes an Option. -/
def buildRuleData (f : RuleForm) : RuleData :=
  { chat_id := f.chatId,
    mode := f.mode,
    include_extensions := if f.extensions = "" then none else some f.extensions,
    size_range := if f.sizeRange = "" then ("0") else f.sizeRange,
    save_dir := if f.saveDir = "" then none else some f.saveDir,
    filename_template :=
      if f.filenameTemplate = "" then none else some f.filenameTemplate,
    match_mode := f.matchMode,
    include_keywords :=
      if f.matchMode = "include" then some f.includeKeywords else none,
    exclude_keywords :=
      if f.matchMode = "exclude" then some f.excludeKeywords else none,
    enabled := true }

/-- C2: a saved rule has at most one keyword list active, selected by
match_mode — include sets only the include list, exclude sets only the
exclude list, all sets neither, and the two lists are never both set. -/
theorem saveRule_keyword_exclusive (f : RuleForm) :
    ((buildRuleData f).match_mode = "include" →
      (buildRuleData f).include_keywords = some f.includeKeywords ∧
      (buildRuleData f).exclude_keywords = none) ∧
    ((buildRuleData f).match_mode = "exclude" →
      (buildRuleData f).exclude_keywords = some f.excludeKeywords ∧
      (buildRuleData f).include_keywords = none) ∧
    ((buildRuleData f).match_mode = "all" →
      (buildRuleData f).include_keywords = none ∧
      (buildRuleData f).exclude_keywords = none) ∧
    ¬((buildRuleData f).include_keywords ≠ none ∧
      (buildRuleData f).exclude_keywords ≠ none) := by
  have hm : (buildRuleData f).match_mode = f.matchMode := rfl
  have hi : (buildRuleData f).include_keywords =
      (if f.matchMode = "include" then some f.includeKeywords else none) := rfl
  have he : (buildRuleData f).exclude_keywords =
      (if f.matchMode = "exclude" then some f.excludeKeywords else none) := rfl
  rw [hm, hi, he]
  refine ⟨?_, ?_, ?_, ?_⟩
  · intro h
    rw [h]
    exact ⟨if_pos rfl, if_neg (by decide)⟩
  · intro h
    rw [h]
    exact ⟨if_pos rfl, if_neg (by decide)⟩
  · intro h
    rw [h]
    exact ⟨if_neg (by decide), if_neg (by decide)⟩
  · intro h
    by_cases hinc : f.matchMode = "include"
    · have hne : f.matchMode ≠ "exclude" := by
        rw [hinc]
        decide
      rw [if_neg hne] at h
      exact h.2 rfl
    · rw [if_neg hinc] at h
      exact h.1 rfl

/-- C2 witness: a concrete include-mode form saved through the theorem has
no exclude list. -/
theorem saveRule_keyword_exclusive_witness :
    (buildRuleData
      ⟨1, ("monitor"), ("mp4"), ("0"), (""), (""), ("include"), ("season"), ("x")⟩
      ).exclude_keywords = none := by
  exact ((saveRule_keyword_exclusive
    ⟨1, ("monitor"), ("mp4"), ("0"), (""), (""), ("include"), ("season"), ("x")⟩).1
    rfl).2

/-- A download record as listed by the dashboard (Dashboard.tsx lines
39-49, restricted to the fields the bulk handlers read). -/
structure DTask where
  id : Nat
  status : String

/-- Selection used by handlePauseAll (Dashboard.tsx lines 256-258): tasks
whose status is downloading or queued. -/
def isActiveDownload (d : DTask) : Bool :=
  decide (d.status = "downloading") || decide (d.status = "queued")

/-- Selection used by handleResumeAll (Dashboard.tsx line 282): tasks
whose status is paused. -/
def isPausedTask (d : DTask) : Bool :=
  decide (d.status = "paused")

/-- The per-task loop shared by handlePauseAll and handleResumeAll
(Dashboard.tsx lines 264-272 and 288-296): every selected task is
attempted in order, a failed attempt is logged and skipped, and the
number of successful attempts is accumulated. The success or failure of
the request on a given task id is abstracted as the oracle ok. Returns
the success count and the list of attempted task ids. -/
def bulkLoop (ok : Nat → Bool) : List DTask → Nat × List Nat
  | [] => (0, [])
  | t :: rest =>
    let r := bulkLoop ok rest
    ((if ok t.id then 1 else 0) + r.1, t.id :: r.2)

/-- handlePauseAll (Dashboard.tsx lines 255-279). -/
def handlePauseAll (downloads : List DTask) (ok : Nat → Bool) : Nat × List Nat :=
  bulkLoop ok (downloads.filter isActiveDownload)

/-- handleResumeAll (Dashboard.tsx lines 281-303). -/
def handleResumeAll (downloads : List DTask) (ok : Nat → Bool) : Nat × List Nat :=
  bulkLoop ok (downloads.filter isPausedTask)

/-- The attempts of a bulk loop cover the whole selected list whatever the
outcome oracle says, and the returned count is the number of successes. -/
theorem bulkLoop_spec (ok : Nat → Bool) (l : List DTask) :
    (bulkLoop ok l).2 = l.map (fun t => t.id) ∧
    (bulkLoop ok l).1 = (l.filter (fun t => ok t.id)).length := by
  induction l with
  | nil => exact ⟨rfl, rfl⟩
  | cons t rest ih =>
    refine ⟨?_, ?_⟩
    · simp [bulkLoop, ih.1]
    · by_cases h : ok t.id = true
      · simp [bulkLoop, ih.2, h, List.filter, Nat.add_comm]
      · simp [bulkLoop, ih.2, h, List.filter]

/-- C3: bulkPause attempts a pause on exactly the tasks whose status is
downloading or queued and bulkResume attempts a resume on exactly the
paused tasks; a failing sub-operation neither aborts the batch nor rolls
back earlier successes (the attempted set does not depend on the outcome
oracle), and the caller receives the count of successful sub-operations. -/
theorem bulk_best_effort (downloads : List DTask) (ok : Nat → Bool) :
    (handlePauseAll downloads ok).2 =
      (downloads.filter isActiveDownload).map (fun t => t.id) ∧
    (handlePauseAll downloads ok).1 =
      ((downloads.filter isActiveDownload).filter (fun t => ok t.id)).length ∧
    (handleResumeAll downloads ok).2 =
      (downloads.filter isPausedTask).map (fun t => t.id) ∧
    (handleResumeAll downloads ok).1 =
      ((downloads.filter isPausedTask).filter (fun t => ok t.id)).length := by
  refine ⟨?_, ?_, ?_, ?_⟩
  · exact (bulkLoop_spec ok (downloads.filter isActiveDownload)).1
  · exact (bulkLoop_spec ok (downloads.filter isActiveDownload)).2
  · exact (bulkLoop_spec ok (downloads.filter isPausedTask)).1
  · exact (bulkLoop_spec ok (downloads.filter isPausedTask)).2

/-- Identity fields of a task available to filename resolution. -/
structure TaskIdentity where
  task_id : String
  message_id : String
  chat_title : String
  timestamp : String
  file_name : String
  year : String
  month : String
  day : String

/-- A parsed filename template: literal pieces interleaved with
placeholder tokens written between braces in the source template. -/
inductive TemplateSeg where
  | lit : String → TemplateSeg
  | placeholder : String → TemplateSeg

/-- The eight placeholder names recognized by filename resolution. -/
def placeholderNames : List String :=
  ["task_id", "message_id", "chat_title", "timestamp", "file_name",
   "year", "month", "day"]

/-- Modelled from the spec: the value substituted for a placeholder token
by filename resolution (the resolver itself is not in the visible source;
the UI lists the variables at Dashboard.tsx lines 1352-1358). The eight
recognized names map to the task identity fields and every other name is
replaced by the empty string. -/
def substPlaceholder (idy : TaskIdentity) (name : String) : String :=
  if name = "task_id" then idy.task_id
  else if name = "message_id" then idy.message_id
  else if name = "chat_title" then idy.chat_title
  else if name = "timestamp" then idy.timestamp
  else if name = "file_name" then idy.file_name
  else if name = "year" then idy.year
  else if name = "month" then idy.month
  else if name = "day" then idy.day
  else ""

/-- Modelled from the spec: rendering of one template segment. -/
def renderSeg (idy : TaskIdentity) : TemplateSeg → String
  | TemplateSeg.lit s => s
  | TemplateSeg.placeholder n => substPlaceholder idy n

/-- Modelled from the spec: expansion of a parsed template by literal
substitution of each placeholder. -/
def expandTemplate (idy : TaskIdentity) (segs : List TemplateSeg) : String :=
  segs.foldr (fun seg acc => renderSeg idy seg ++ acc) ("")

/-- C4: template expansion substitutes placeholders literally in place;
each of the eight recognized placeholders expands to the corresponding
task identity field, and an unrecognized placeholder token expands to the
empty string. -/
theorem filename_template_expansion (idy : TaskIdentity) :
    (∀ (pre post : List TemplateSeg) (name : String),
      expandTemplate idy (pre ++ TemplateSeg.placeholder name :: post) =
        expandTemplate idy pre ++ substPlaceholder idy name ++
          expandTemplate idy post)
    ∧ substPlaceholder idy ("task_id") = idy.task_id
    ∧ substPlaceholder idy ("message_id") = idy.message_id
    ∧ substPlaceholder idy ("chat_title") = idy.chat_title
    ∧ substPlaceholder idy ("timestamp") = idy.timestamp
    ∧ substPlaceholder idy ("file_name") = idy.file_name
    ∧ substPlaceholder idy ("year") = idy.year
    ∧ substPlaceholder idy ("month") = idy.month
    ∧ substPlaceholder idy ("day") = idy.day
    ∧ (∀ name : String, ¬(name ∈ placeholderNames) →
        substPlaceholder idy name = "") := by
  refine ⟨?_, rfl, rfl, rfl, rfl, rfl, rfl, rfl, rfl, ?_⟩
  · intro pre post name
    induction pre with
    | nil => simp [expandTemplate, renderSeg]
    | cons seg rest ih =>
      simp only [List.cons_append, expandTemplate, List.foldr_cons] at ih ⊢
      rw [ih]
      simp [String.append_assoc]
  · intro name h
    simp only [placeholderNames, List.mem_cons, List.not_mem_nil, or_false,
      not_or] at h
    obtain ⟨h1, h2, h3, h4, h5, h6, h7, h8⟩ := h
    simp [substPlaceholder, h1, h2, h3, h4, h5, h6, h7, h8]

/-- C4 witness: a template made of a recognized placeholder, a literal
piece and an unrecognized placeholder expands concretely through the
theorem. -/
theorem filename_template_expansion_witness :
    expandTemplate ⟨("7"), ("42"), ("c"), ("123"), ("f.mp4"), ("2024"), ("01"), ("02")⟩
      [TemplateSeg.placeholder ("task_id"), TemplateSeg.lit ("_"),
       TemplateSeg.placeholder ("bogus")] = "7_" := by
  have h := filename_template_expansion
    ⟨("7"), ("42"), ("c"), ("123"), ("f.mp4"), ("2024"), ("01"), ("02")⟩
  have hexp := h.1 [] [TemplateSeg.lit ("_"), TemplateSeg.placeholder ("bogus")]
    ("task_id")
  have hbogus := h.2.2.2.2.2.2.2.2.2 ("bogus") (by decide)
  simp only [List.nil_append] at hexp
  rw [hexp, h.2.1]
  simp [expandTemplate, renderSeg, hbogus]

/-- Task status of the download state machine.
Modelled from the spec: section 3 status set. -/
inductive TaskStatus where
  | pending : TaskStatus
  | queued : TaskStatus
  | downloading : TaskStatus
  | paused : TaskStatus
  | completed : TaskStatus
  | failed : TaskStatus
deriving DecidableEq

/-- A scheduler-side task record, restricted to the fields the claims
touch. Modelled from the spec: section 3 DownloadTask, with the staged
and final file paths collapsed into one artifact list. -/
structure MTask where
  id : Nat
  status : TaskStatus
  priority : Bool
  error : Option String
  artifacts : List String
deriving DecidableEq

/-- Synchronous errors of the task-control boundary.
Modelled from the spec: section 7 taxonomy. -/
inductive SchedError where
  | notFound : SchedError
  | illegalState : SchedError
deriving DecidableEq

/-- Modelled from the spec: pause is valid from queued or downloading and
sets the status to paused; any other status is an illegal state. -/
def pauseTask (t : MTask) : Except SchedError MTask :=
  match t.status with
  | TaskStatus.queued => Except.ok { t with status := TaskStatus.paused }
  | TaskStatus.downloading => Except.ok { t with status := TaskStatus.paused }
  | _ => Except.error SchedError.illegalState

/-- Modelled from the spec: resume is valid from paused and re-enters the
queue; any other status is an illegal state. -/
def resumeTask (t : MTask) : Except SchedError MTask :=
  match t.status with
  | TaskStatus.paused => Except.ok { t with status := TaskStatus.queued }
  | _ => Except.error SchedError.illegalState

/-- Modelled from the spec: set-priority flags a controllable task, has no
effect on a task already downloading, and is an illegal state on a
terminal task. -/
def setPriorityTask (t : MTask) : Except SchedError MTask :=
  match t.status with
  | TaskStatus.pending => Except.ok { t with priority := true }
  | TaskStatus.queued => Except.ok { t with priority := true }
  | TaskStatus.paused => Except.ok { t with priority := true }
  | TaskStatus.downloading => Except.ok t
  | _ => Except.error SchedError.illegalState

/-- Modelled from the spec: a transfer error sets the status to failed and
records the error detail. -/
def failTask (t : MTask) (e : String) : MTask :=
  { t with status := TaskStatus.failed, error := some e }

/-- Result of a rejected per-task operation: the task is unchanged. -/
def recover (t : MTask) : Except SchedError MTask → MTask
  | Except.ok u => u
  | Except.error _ => t

/-- Commands funnelled through the scheduler.
Modelled from the spec: sections 4.3 and 6. -/
inductive SchedCmd where
  | pauseC : Nat → SchedCmd
  | resumeC : Nat → SchedCmd
  | setPriorityC : Nat → SchedCmd
  | failC : Nat → String → SchedCmd
  | promoteC : Nat → SchedCmd
  | deleteC : Nat → Bool → SchedCmd

/-- Whether a command is the explicit delete operation. -/
def isDelete : SchedCmd → Bool
  | SchedCmd.deleteC _ _ => true
  | _ => false

/-- Modelled from the spec: the effect of a non-delete command on one
task; commands address a task by id, a rejected operation leaves the task
unchanged, a transfer error only hits a downloading task, and promotion
moves a queued task into a free downloading slot. -/
def stepTask (c : SchedCmd) (t : MTask) : MTask :=
  match c with
  | SchedCmd.pauseC i => if t.id = i then recover t (pauseTask t) else t
  | SchedCmd.resumeC i => if t.id = i then recover t (resumeTask t) else t
  | SchedCmd.setPriorityC i => if t.id = i then recover t (setPriorityTask t) else t
  | SchedCmd.failC i e =>
    if t.id = i ∧ t.status = TaskStatus.downloading then failTask t e else t
  | SchedCmd.promoteC i =>
    if t.id = i ∧ t.status = TaskStatus.queued then
      { t with status := TaskStatus.downloading }
    else t
  | SchedCmd.deleteC _ _ => t

/-- Modelled from the spec: delete removes the task record and, exactly
when the delete-file flag is set, the file artifacts of that task. The
first component is the surviving store, the second the removed files. -/
def deleteTask (store : List MTask) (i : Nat) (deleteFile : Bool) :
    List MTask × List String :=
  (store.filter (fun t => decide (t.id ≠ i)),
   if deleteFile then
     (store.filter (fun t => decide (t.id = i))).flatMap (fun t => t.artifacts)
   else [])

/-- Modelled from the spec: the effect of one command on the task store;
all mutations are funnelled through this single entry point. -/
def applyCmd (c : SchedCmd) (ts : List MTask) : List MTask :=
  match c with
  | SchedCmd.deleteC i df => (deleteTask ts i df).1
  | _ => ts.map (stepTask c)

/-- Every per-task step preserves the task id. -/
theorem stepTask_id (c : SchedCmd) (t : MTask) : (stepTask c t).id = t.id := by
  cases c <;> cases h : t.status <;>
    simp [stepTask, recover, pauseTask, resumeTask, setPriorityTask, failTask, h] <;>
    split <;> rfl

/-- Frontend visibility of the per-task delete button (Dashboard.tsx
lines 836-850): rendered for every status. -/
def deleteButtonVisible (_ : String) : Bool := true

/-- Frontend visibility of the per-task resume button (Dashboard.tsx
line 802): rendered exactly for paused tasks. -/
def resumeButtonVisible (status : String) : Bool := decide (status = "paused")

/-- C5: delete is valid from every task status — the record is removed
with no condition on its status, the other records survive, the file
artifacts are removed exactly when the explicit delete-file flag is set,
and the task-control surface offers deletion for every status. -/
theorem delete_any_status (store : List MTask) (i : Nat) (df : Bool) :
    (∀ t, t ∈ (deleteTask store i df).1 → t.id ≠ i)
    ∧ (∀ t, t ∈ store → t.id ≠ i → t ∈ (deleteTask store i df).1)
    ∧ (df = false → (deleteTask store i df).2 = [])
    ∧ (df = true → ∀ t, t ∈ store → t.id = i →
        ∀ a, a ∈ t.artifacts → a ∈ (deleteTask store i df).2)
    ∧ (∀ status : String, deleteButtonVisible status = true) := by
  refine ⟨?_, ?_, ?_, ?_, fun _ => rfl⟩
  · intro t ht
    have := List.mem_filter.mp ht
    simpa using this.2
  · intro t ht hne
    exact List.mem_filter.mpr ⟨ht, by simpa using hne⟩
  · intro h
    simp [deleteTask, h]
  · intro h t ht hid a ha
    simp only [deleteTask, h, if_true]
    exact List.mem_flatMap.mpr ⟨t, List.mem_filter.mpr ⟨ht, by simpa using hid⟩, ha⟩

/-- C5 witness: deleting a downloading task with the flag set removes its
record and surrenders its staged artifact. -/
theorem delete_any_status_witness :
    (∀ t, t ∈ (deleteTask
        [⟨3, TaskStatus.downloading, false, none, [("a.part")]⟩] 3 true).1 →
      t.id ≠ 3)
    ∧ ("a.part") ∈ (deleteTask
        [⟨3, TaskStatus.downloading, false, none, [("a.part")]⟩] 3 true).2 := by
  refine ⟨(delete_any_status _ 3 true).1, ?_⟩
  exact (delete_any_status
      [⟨3, TaskStatus.downloading, false, none, [("a.part")]⟩] 3 true).2.2.2.1
    rfl ⟨3, TaskStatus.downloading, false, none, [("a.part")]⟩
    (List.mem_singleton.mpr rfl) rfl ("a.part") (List.mem_singleton.mpr rfl)

/-- C6: resume succeeds exactly on a paused task and yields the queued
status with the priority flag and identity preserved; on a completed or
failed task, resume — like pause and set-priority — is rejected with an
illegal-state error and the task is left unchanged. -/
theorem resume_paused_only (t : MTask) :
    ((∃ u, resumeTask t = Except.ok u) ↔ t.status = TaskStatus.paused)
    ∧ (t.status = TaskStatus.paused →
        resumeTask t = Except.ok { t with status := TaskStatus.queued })
    ∧ (∀ u, resumeTask t = Except.ok u →
        u.priority = t.priority ∧ u.id = t.id ∧ u.status = TaskStatus.queued)
    ∧ (t.status = TaskStatus.completed ∨ t.status = TaskStatus.failed →
        resumeTask t = Except.error SchedError.illegalState
        ∧ pauseTask t = Except.error SchedError.illegalState
        ∧ setPriorityTask t = Except.error SchedError.illegalState
        ∧ stepTask (SchedCmd.resumeC t.id) t = t) := by
  cases h : t.status <;>
    simp [resumeTask, pauseTask, setPriorityTask, stepTask, recover, h]

/-- C6 witness: a concrete paused task resumes to queued with its
priority flag kept, and a concrete failed task rejects resume. -/
theorem resume_paused_only_witness :
    resumeTask ⟨5, TaskStatus.paused, true, none, []⟩ =
      Except.ok ⟨5, TaskStatus.queued, true, none, []⟩
    ∧ resumeTask ⟨6, TaskStatus.failed, false, some ("boom"), []⟩ =
      Except.error SchedError.illegalState := by
  refine ⟨(resume_paused_only ⟨5, TaskStatus.paused, true, none, []⟩).2.1 rfl, ?_⟩
  exact ((resume_paused_only ⟨6, TaskStatus.failed, false, some ("boom"), []⟩
    ).2.2.2 (Or.inr rfl)).1

/-- Tab filter of the download table (Dashboard.tsx lines 672-677): the
downloading tab shows every record whose status is not completed, the
completed tab exactly the completed ones. -/
def shownInTab (tab : String) (r : DTask) : Bool :=
  if tab = "downloading" then !(decide (r.status = "completed"))
  else decide (r.status = "completed")

/-- A non-delete command acts pointwise on the store. -/
theorem applyCmd_nondelete (c : SchedCmd) (ts : List MTask)
    (h : isDelete c = false) : applyCmd c ts = ts.map (stepTask c) := by
  cases c <;> first | rfl | simp [isDelete] at h

/-- C7: a transfer error moves the task to failed with the error detail
recorded; no command other than the explicit delete ever changes a failed
task (no automatic retry, error detail retained) or removes any task from
the store, and the dashboard's downloading tab keeps failed records
visible. -/
theorem failed_task_persistence :
    (∀ (t : MTask) (e : String),
      (failTask t e).status = TaskStatus.failed
      ∧ (failTask t e).error = some e
      ∧ (failTask t e).id = t.id)
    ∧ (∀ (c : SchedCmd) (t : MTask), isDelete c = false →
        t.status = TaskStatus.failed → stepTask c t = t)
    ∧ (∀ (c : SchedCmd) (ts : List MTask) (i : Nat), isDelete c = false →
        ((∃ t, t ∈ applyCmd c ts ∧ t.id = i) ↔ (∃ t, t ∈ ts ∧ t.id = i)))
    ∧ (∀ r : DTask, r.status = "failed" → shownInTab ("downloading") r = true) := by
  refine ⟨fun t e => ⟨rfl, rfl, rfl⟩, ?_, ?_, ?_⟩
  · intro c t _hc hst
    cases c <;>
      simp [stepTask, recover, pauseTask, resumeTask, setPriorityTask, hst]
  · intro c ts i hc
    rw [applyCmd_nondelete c ts hc]
    constructor
    · rintro ⟨t, ht, hid⟩
      obtain ⟨u, hu, rfl⟩ := List.mem_map.mp ht
      rw [stepTask_id] at hid
      exact ⟨u, hu, hid⟩
    · rintro ⟨t, ht, hid⟩
      refine ⟨stepTask c t, List.mem_map_of_mem _ ht, ?_⟩
      rw [stepTask_id]
      exact hid
  · intro r h
    simp [shownInTab, h]

/-- C7 witness: a concrete transfer error, the inertness of resume on the
failed task, and its visibility in the downloading tab, all through the
theorem. -/
theorem failed_task_persistence_witness :
    (failTask ⟨9, TaskStatus.downloading, false, none, []⟩ ("net down")).status =
      TaskStatus.failed
    ∧ stepTask (SchedCmd.resumeC 9) ⟨9, TaskStatus.failed, false, some ("net down"), []⟩ =
        ⟨9, TaskStatus.failed, false, some ("net down"), []⟩
    ∧ shownInTab ("downloading") ⟨9, ("failed")⟩ = true := by
  refine ⟨(failed_task_persistence.1 _ ("net down")).1, ?_, ?_⟩
  · exact failed_task_persistence.2.1 (SchedCmd.resumeC 9)
      ⟨9, TaskStatus.failed, false, some ("net down"), []⟩ rfl rfl
  · exact failed_task_persistence.2.2.2 ⟨9, ("failed")⟩ rfl

/-- Polling interval of the dashboard refresh loop in milliseconds
(Dashboard.tsx lines 113-116). -/
def pollIntervalMs : Nat := 2000

/-- An event hitting the system: a scheduler command or a status poll by
an external observer. -/
inductive UiEvent where
  | cmd : SchedCmd → UiEvent
  | poll : UiEvent

/-- Modelled from the spec: a status poll is a pure read and leaves the
store untouched; a command acts through the scheduler entry point. -/
def applyEvent (s : List MTask) : UiEvent → List MTask
  | UiEvent.cmd c => applyCmd c s
  | UiEvent.poll => s

/-- Run a command sequence through the scheduler. -/
def runCmds (cs : List SchedCmd) (ts : List MTask) : List MTask :=
  cs.foldl (fun s c => applyCmd c s) ts

/-- Run an event sequence, polls included. -/
def runEvents (es : List UiEvent) (ts : List MTask) : List MTask :=
  es.foldl applyEvent ts

/-- The commands carried by an event sequence, in order. -/
def eventCmds (es : List UiEvent) : List SchedCmd :=
  es.filterMap (fun e =>
    match e with
    | UiEvent.cmd c => some c
    | UiEvent.poll => none)

/-- C9: the dashboard polls task state every 2000 milliseconds — a fixed
coarse interval of a few seconds — and interleaving any number of polls
into a command sequence leaves the scheduler's state evolution unchanged. -/
theorem polling_non_interference :
    pollIntervalMs = 2000
    ∧ (∀ (es : List UiEvent) (ts : List MTask),
        runEvents es ts = runCmds (eventCmds es) ts) := by
  refine ⟨rfl, ?_⟩
  intro es ts
  induction es generalizing ts with
  | nil => rfl
  | cons e rest ih =>
    cases e with
    | cmd c =>
      simp only [runEvents, List.foldl_cons, applyEvent, eventCmds,
        List.filterMap_cons_some, runCmds]
      exact ih (applyCmd c ts)
    | poll =>
      simp only [runEvents, List.foldl_cons, applyEvent, eventCmds,
        List.filterMap_cons_none]
      exact ih ts

/-- Extension normalization: drop one leading dot. Modelled from the
spec: extensions are compared without the leading dot. -/
def stripDot : List Char → List Char
  | '.' :: rest => rest
  | cs => cs

/-- Case normalization of a character list. -/
def lowerChars (cs : List Char) : List Char := cs.map Char.toLower

/-- Modelled from the spec: the extension filter of rule evaluation
(section 4.1 step 1) — pass if the allow-set is empty or the extension,
lower-cased and without its leading dot, matches a lower-cased member. -/
def extFilter (allow : List String) (ext : String) : Bool :=
  allow.isEmpty ||
    allow.any (fun a => decide (lowerChars a.data = lowerChars (stripDot ext.data)))

/-- C8: the extension filter passes every message when the allow-set is
empty, and otherwise passes exactly when the extension — compared
case-insensitively and without the leading dot — is a member of the
allow-set. -/
theorem extension_filter_semantics (allow : List String) (ext : String) :
    extFilter allow ext = true ↔
      (allow = [] ∨
        lowerChars (stripDot ext.data) ∈ allow.map (fun a => lowerChars a.data)) := by
  simp only [extFilter, Bool.or_eq_true, List.isEmpty_iff, List.any_eq_true,
    decide_eq_true_eq, List.mem_map]

/-- Unit labels of formatBytes (Dashboard.tsx line 418). -/
def unitSizes : List String := ["B", "KB", "MB", "GB"]

/-- JS Math.round on an exact rational: floor of the value plus one half. -/
def jsRound (q : ℚ) : ℤ := ⌊q + 1 / 2⌋

/-- The unit index of formatBytes (Dashboard.tsx line 419):
Math.floor(Math.log(bytes) / Math.log(1024)) with the logarithms taken
exactly, which on a positive natural is the base-1024 natural logarithm. -/
def unitIndex (bytes : Nat) : Nat := Nat.log 1024 bytes

/-- Result of formatBytes: the fixed string for zero bytes, or a value
rounded to two decimals together with the unit looked up in unitSizes —
none when the lookup is out of bounds (JS undefined). -/
inductive FmtResult where
  | zeroBytes : FmtResult
  | value : ℚ → Option String → FmtResult
deriving DecidableEq

/-- formatBytes (Dashboard.tsx lines 415-421), with real-number
arithmetic in place of IEEE doubles. -/
def formatBytes (bytes : Nat) : FmtResult :=
  if bytes = 0 then FmtResult.zeroBytes
  else FmtResult.value
    ((jsRound ((bytes : ℚ) / (1024 : ℚ) ^ unitIndex bytes * 100) : ℚ) / 100)
    (unitSizes[unitIndex bytes]?)

/-- C10: formatBytes yields the zero marker at 0; for inputs from 1 up to
but excluding 1024^4 the unit index — the floor of the base-1024
logarithm — stays within the four-element unit list and the value is the
input divided by 1024^index rounded to two decimals; from 1024^4 onward
the unit index reaches 4 or more, so the unit lookup is out of bounds. -/
theorem formatBytes_spec :
    formatBytes 0 = FmtResult.zeroBytes
    ∧ (∀ bytes : Nat, 1 ≤ bytes → bytes < 1024 ^ 4 →
        unitIndex bytes < 4
        ∧ unitSizes[unitIndex bytes]? ≠ none
        ∧ formatBytes bytes = FmtResult.value
            ((jsRound ((bytes : ℚ) / (1024 : ℚ) ^ unitIndex bytes * 100) : ℚ) / 100)
            (unitSizes[unitIndex bytes]?))
    ∧ (∀ bytes : Nat, 1024 ^ 4 ≤ bytes →
        4 ≤ unitIndex bytes ∧ unitSizes[unitIndex bytes]? = none) := by
  refine ⟨rfl, ?_, ?_⟩
  · intro bytes h1 h4
    have hne : bytes ≠ 0 := by omega
    have hlt : unitIndex bytes < 4 := Nat.log_lt_of_lt_pow hne h4
    have hlen : unitIndex bytes < unitSizes.length := hlt
    refine ⟨hlt, ?_, ?_⟩
    · simp [List.getElem?_eq_getElem hlen]
    · simp [formatBytes, hne]
  · intro bytes hge
    have hne : bytes ≠ 0 := by
      have : (0 : Nat) < 1024 ^ 4 := by positivity
      omega
    have h4 : 4 ≤ unitIndex bytes :=
      (Nat.pow_le_iff_le_log (by norm_num) hne).mp hge
    refine ⟨h4, ?_⟩
    rw [List.getElem?_eq_none]
    exact h4

/-- C10 witness: concrete in-range and out-of-range inputs through the
theorem. -/
theorem formatBytes_spec_witness :
    unitIndex 2048 < 4
    ∧ unitSizes[unitIndex (1024 ^ 4)]? = none := by
  refine ⟨(formatBytes_spec.2.1 2048 (by decide) (by norm_num)).1, ?_⟩
  exact (formatBytes_spec.2.2 (1024 ^ 4) (le_refl _)).2
